import Mathlib

/-!
Shallow embedding of the setdm message ingestion and consistency core.

The client reconciler lives in `src/frontend/app/chats/page.tsx` (chat list
sorting, the realtime `message:new` handler, `handleSendMessage`,
`handleChatSelect`) and `src/frontend/lib/realtime.ts` (the reconnecting
realtime client).  The backend store and webhook router are documented in
`src/backend/ARCHITECTURE.md` and the webhook implementation summary; their
Python sources are not part of the frontend tree, so those two operations are
modelled from the spec where noted.

Timestamps are modelled as milliseconds since the epoch (`Nat`), the value of
`new Date(ts).getTime()` for a valid timestamp string; a null timestamp is
`Option.none`.
-/

namespace Setdm

/-- `Chat` from `src/frontend/lib/api.ts` (fields the modelled operations do
not read are omitted).  `unread_count` is `none` when the field holds a
non-number value; the page code guards with `typeof chat.unread_count ===
"number"`. -/
structure Chat where
  id : String
  provider_id : String
  timestamp : Option Nat
  unread_count : Option Int
  is_read : Bool
  is_ignored : Bool
  deriving Repr, DecidableEq, Inhabited

/-- `Message` from `src/frontend/lib/api.ts` (relevant fields). -/
structure Message where
  id : String
  chat_id : String
  text : Option String
  timestamp : Nat
  is_sender : Nat
  deriving Repr, DecidableEq, Inhabited

/-- `MessageEventPayload` from `src/frontend/lib/realtime.ts` (relevant
fields). -/
structure MessageEventPayload where
  id : String
  chat_id : String
  text : Option String
  timestamp : Nat
  is_sender : Nat
  deriving Repr, DecidableEq, Inhabited

/-- The time used by the sort comparator:
`a.timestamp ? new Date(a.timestamp).getTime() : 0` (page.tsx 37-38). -/
def chatTime (c : Chat) : Nat :=
  c.timestamp.getD 0

/-- The comparator closure passed to `sort` in `sortChatsByPriority`
(page.tsx 33-40): unread first, then newest first. -/
def chatCmp (a b : Chat) : Int :=
  if a.is_read ≠ b.is_read then (if a.is_read then 1 else -1)
  else (chatTime b : Int) - (chatTime a : Int)

/-- `a` may come before `b` under the comparator (`chatCmp a b <= 0`). -/
def chatR (a b : Chat) : Prop :=
  chatCmp a b ≤ 0

instance : DecidableRel chatR :=
  fun a b => inferInstanceAs (Decidable (chatCmp a b ≤ 0))

instance : IsTotal Chat chatR :=
  ⟨by
    intro a b
    unfold chatR chatCmp
    by_cases h : a.is_read = b.is_read
    · simp only [h, ne_eq, not_true_eq_false, if_false]
      omega
    · have h' : b.is_read ≠ a.is_read := fun hba => h hba.symm
      simp only [ne_eq, h, h', not_false_eq_true, if_true]
      cases ha : a.is_read <;> cases hb : b.is_read <;> simp_all⟩

instance : IsTrans Chat chatR :=
  ⟨by
    intro a b c hab hbc
    unfold chatR chatCmp at hab hbc ⊢
    cases ha : a.is_read <;> cases hb : b.is_read <;> cases hc : c.is_read <;>
      simp_all <;> omega⟩

/-- `sortChatsByPriority` (page.tsx 32-41).  The source copies the array
(`[...items]`) and runs the ECMAScript stable sort with `chatCmp`; a stable
sort by a total preorder has a unique result, embedded here with insertion
sort over `chatR`. -/
def sortChatsByPriority (items : List Chat) : List Chat :=
  List.insertionSort chatR items

/-- `normalizeRealtimeMessage` (page.tsx 83-86): the payload is spread into a
`Message` value field by field. -/
def normalizeRealtimeMessage (p : MessageEventPayload) : Message :=
  { id := p.id, chat_id := p.chat_id, text := p.text,
    timestamp := p.timestamp, is_sender := p.is_sender }

/-- The page state touched by the modelled handlers: the `chats` list, the
`selectedChat` (mirrored by `selectedChatRef`), the visible `messages`
transcript, and `pendingMessageIdsRef` (a JS `Set` of message ids). -/
structure PageState where
  chats : List Chat
  selectedChat : Option Chat
  messages : List Message
  pending : List String
  deriving Repr, DecidableEq, Inhabited

/-- `selectedChatRef.current?.id === payload.chat_id` (page.tsx 316, 339). -/
def isActiveChat (s : PageState) (p : MessageEventPayload) : Bool :=
  match s.selectedChat with
  | some c => c.id == p.chat_id
  | none => false

/-- The `updatedChat` record built by the realtime handler
(page.tsx 317-329). -/
def updateChatOnMessage (isActive : Bool) (p : MessageEventPayload)
    (chat : Chat) : Chat :=
  let isInbound := p.is_sender == 0
  { chat with
    timestamp := some p.timestamp
    is_read := if isInbound then (if isActive then true else false)
               else chat.is_read
    unread_count := if isInbound then
        (if isActive then some 0 else some (chat.unread_count.getD 0 + 1))
      else chat.unread_count }

/-- Replace the first element satisfying `p` by its image under `f`.  This is
the semantics of `findIndex` followed by a copy and `next[idx] = updatedChat`
(page.tsx 308-331). -/
def replaceFirst (p : Chat → Bool) (f : Chat → Chat) : List Chat → List Chat
  | [] => []
  | x :: xs => if p x then f x :: xs else x :: replaceFirst p f xs

/-- The `setChats` functional update of the realtime handler
(page.tsx 307-333): when the payload's chat is found, its entry is replaced
by `updatedChat` and the list re-sorted; otherwise the list is returned
unchanged (the code then refetches the chat list, an IO path outside this
model). -/
def applyChatListUpdate (s : PageState) (p : MessageEventPayload) : List Chat :=
  if s.chats.any (fun chat => chat.id == p.chat_id) then
    sortChatsByPriority
      (replaceFirst (fun chat => chat.id == p.chat_id)
        (updateChatOnMessage (isActiveChat s p) p) s.chats)
  else s.chats

/-- `{ ...prev, timestamp: payload.timestamp, is_read: true }`
(page.tsx 344-349 and 352-356). -/
def touchSelectedChat (p : MessageEventPayload) (c : Chat) : Chat :=
  { c with timestamp := some p.timestamp, is_read := true }

/-- The realtime `message:new` handler (page.tsx 305-365).  The chat list is
updated unconditionally; when the payload targets the selected chat, a
pending id hit removes the id and discards the message payload, otherwise
the message is appended unless its id is already present. -/
def onMessageNew (s : PageState) (p : MessageEventPayload) : PageState :=
  let chats' := applyChatListUpdate s p
  if isActiveChat s p then
    if s.pending.contains p.id then
      { s with chats := chats'
               pending := s.pending.erase p.id
               selectedChat := s.selectedChat.map (touchSelectedChat p) }
    else
      { s with chats := chats'
               selectedChat := s.selectedChat.map (touchSelectedChat p)
               messages :=
                 if s.messages.any (fun m => m.id == p.id) then s.messages
                 else s.messages ++ [normalizeRealtimeMessage p] }
  else
    { s with chats := chats' }

/-- The success path of `handleSendMessage` (page.tsx 253-293), applied to
the acknowledged `response.message`: no selected chat, an ignored chat, or a
falsy id leave the state unchanged (the code returns or throws); otherwise
the id is marked pending and the message appended unless already present. -/
def handleSendAck (s : PageState) (persisted : Message) : PageState :=
  match s.selectedChat with
  | none => s
  | some c =>
    if c.is_ignored then s
    else if persisted.id == "" then s
    else
      { s with
        pending := if s.pending.contains persisted.id then s.pending
                   else s.pending ++ [persisted.id]
        messages := if s.messages.any (fun m => m.id == persisted.id) then
                      s.messages
                    else s.messages ++ [persisted] }

/-- The `setTimeout` purge scheduled by `handleSendMessage`
(page.tsx 285-287): the pending id is deleted after 5000 ms regardless of
whether the realtime echo arrived. -/
def purgePending (s : PageState) (id : String) : PageState :=
  { s with pending := s.pending.erase id }

/-- The local chat-list update performed after `markChatAsRead` succeeds
inside `handleChatSelect` (page.tsx 188-190). -/
def markChatAsReadLocal (chats : List Chat) (chatId : String) : List Chat :=
  chats.map (fun c => if c.id == chatId then { c with is_read := true } else c)

/-- `handleChatSelect` (page.tsx 171-196): ignored chats are rejected; the
chat becomes selected, its messages are loaded (`fetched` stands for the
`getChatMessages` result), and an unread chat is marked read. -/
def handleChatSelect (s : PageState) (chat : Chat) (fetched : List Message) :
    PageState :=
  if chat.is_ignored then s
  else
    { s with
      selectedChat := some chat
      messages := fetched
      chats := if chat.is_read then s.chats
               else markChatAsReadLocal s.chats chat.id }

/-- The client-side operations that touch the transcript state. -/
inductive ClientOp where
  | sendAck (persisted : Message)
  | remote (p : MessageEventPayload)
  | purge (id : String)
  deriving Repr, DecidableEq

/-- Apply one client operation. -/
def applyOp (s : PageState) : ClientOp → PageState
  | .sendAck m => handleSendAck s m
  | .remote p => onMessageNew s p
  | .purge id => purgePending s id

/-- Apply a sequence of client operations, oldest first. -/
def applyOps (s : PageState) (ops : List ClientOp) : PageState :=
  ops.foldl applyOp s

/-- Observation helper: the first chat with the given id. -/
def chatById (chats : List Chat) (id : String) : Option Chat :=
  chats.find? (fun c => c.id == id)

/-- Reconnect bookkeeping of `RealtimeClient`
(src/frontend/lib/realtime.ts). -/
structure RealtimeClientState where
  reconnectAttempts : Nat
  deriving Repr, DecidableEq, Inhabited

/-- `scheduleReconnect` (realtime.ts 164-175): returns the delay passed to
`setTimeout`, `Math.min(30000, 1000 * 2 ** reconnectAttempts)`, together with
the state holding the incremented attempt counter. -/
def scheduleReconnect (s : RealtimeClientState) : Nat × RealtimeClientState :=
  (min 30000 (1000 * 2 ^ s.reconnectAttempts),
   { s with reconnectAttempts := s.reconnectAttempts + 1 })

/-- `socket.onopen` (realtime.ts 134-136): a successful connection resets the
attempt counter. -/
def onSocketOpen (s : RealtimeClientState) : RealtimeClientState :=
  { s with reconnectAttempts := 0 }

/-- Modelled from the spec: the backend store operation `create_message`
(the `mergeMessage` dedup gate) is backend Python that is absent from `src/`;
`src/backend/ARCHITECTURE.md` "Message Deduplication" describes it — select
the row by provider id, skip when present, insert otherwise.  The store is
abstracted to the list of stored provider ids.  Returns whether a row was
inserted together with the new store. -/
def create_message (store : List String) (pid : String) : Bool × List String :=
  if store.contains pid then (false, store)
  else (true, store ++ [pid])

/-- `n` repeated merges of the same provider id: the number of actual inserts
and the final store. -/
def mergeMessageN (n : Nat) (pid : String) (store : List String) :
    Nat × List String :=
  match n with
  | 0 => (0, store)
  | n + 1 =>
    let r := mergeMessageN n pid store
    let r2 := create_message r.2 pid
    (r.1 + (if r2.1 then 1 else 0), r2.2)

/-- The acknowledgement of the webhook endpoint (HTTP 200 OK). -/
inductive WebhookAck where
  | ok
  deriving Repr, DecidableEq

/-- Modelled from the spec: the webhook router
(`backend/app/features/webhooks/router.py`) is absent from `src/`; per spec
§4.3/§6 and the webhook implementation summary's security notes, the endpoint
runs its internal pipeline (abstracted by `process`) and returns 200 OK for
every request; an internal failure is logged (second component) and never
surfaced to the provider. -/
def handleInboundEvent (process : MessageEventPayload → Except String Unit)
    (p : MessageEventPayload) : WebhookAck × List String :=
  match process p with
  | Except.ok _ => (WebhookAck.ok, [])
  | Except.error e => (WebhookAck.ok, [e])

/-! ### Concrete fixtures used by witnesses and counterexamples -/

/-- Fixture: a read, not ignored chat. -/
def sampleChat : Chat :=
  { id := "c1", provider_id := "p1", timestamp := some 100,
    unread_count := some 0, is_read := true, is_ignored := false }

/-- Fixture: `sampleChat` is loaded and selected, empty transcript. -/
def sampleState : PageState :=
  { chats := [sampleChat], selectedChat := some sampleChat,
    messages := [], pending := [] }

/-- Fixture: an inbound realtime payload for `sampleChat`. -/
def samplePayload : MessageEventPayload :=
  { id := "m1", chat_id := "c1", text := some "hi",
    timestamp := 200, is_sender := 0 }

/-- Fixture: the acknowledged message of a local send, same id as
`samplePayload`. -/
def samplePersisted : Message :=
  { id := "m1", chat_id := "c1", text := some "hi",
    timestamp := 200, is_sender := 1 }

/-- Fixture: a chat whose stored timestamp is newer than `stalePayload`. -/
def lateChat : Chat :=
  { id := "c1", provider_id := "p1", timestamp := some 2000,
    unread_count := some 0, is_read := true, is_ignored := false }

/-- Fixture: `lateChat` loaded, nothing selected. -/
def lateState : PageState :=
  { chats := [lateChat], selectedChat := none, messages := [], pending := [] }

/-- Fixture: a payload older than `lateChat`'s stored timestamp. -/
def stalePayload : MessageEventPayload :=
  { id := "m2", chat_id := "c1", text := none,
    timestamp := 1000, is_sender := 0 }

/-- Fixture: `sampleState` with the id of `samplePersisted` pending. -/
def samplePendingState : PageState :=
  { sampleState with pending := ["m1"] }

/-! ### Helper lemmas -/

theorem chatR_iff (a b : Chat) :
    chatR a b ↔ (a.is_read = false ∧ b.is_read = true) ∨
      (a.is_read = b.is_read ∧ chatTime b ≤ chatTime a) := by
  unfold chatR chatCmp
  cases ha : a.is_read <;> cases hb : b.is_read <;> simp_all

theorem replaceFirst_decomp (p : Chat → Bool) (f : Chat → Chat) (c : Chat) :
    ∀ l : List Chat, c ∈ l → p c = true → (∀ y ∈ l, p y = true → y = c) →
      ∃ l1 l2, l = l1 ++ c :: l2 ∧ (∀ y ∈ l1, p y = false) ∧
        replaceFirst p f l = l1 ++ f c :: l2 := by
  intro l
  induction l with
  | nil => intro hc; exact absurd hc (List.not_mem_nil c)
  | cons x xs ih =>
    intro hc hpc huniq
    by_cases hx : p x = true
    · have hxc : x = c := huniq x (List.mem_cons_self x xs) hx
      subst hxc
      exact ⟨[], xs, rfl, by simp, by simp [replaceFirst, hx]⟩
    · have hxc : x ≠ c := fun h => hx (h ▸ hpc)
      have hcxs : c ∈ xs := by
        rcases List.mem_cons.mp hc with h | h
        · exact absurd h.symm hxc
        · exact h
      obtain ⟨l1, l2, hl, hl1, hrf⟩ :=
        ih hcxs hpc (fun y hy hpy => huniq y (List.mem_cons_of_mem x hy) hpy)
      refine ⟨x :: l1, l2, by simp [hl], ?_, ?_⟩
      · intro y hy
        rcases List.mem_cons.mp hy with rfl | hy'
        · exact Bool.not_eq_true (p y) ▸ hx
        · exact hl1 y hy'
      · simp [replaceFirst, hx, hrf]

theorem find_eq_of_unique (q : Chat → Bool) (x : Chat) :
    ∀ l : List Chat, x ∈ l → q x = true → (∀ y ∈ l, q y = true → y = x) →
      l.find? q = some x := by
  intro l
  induction l with
  | nil => intro hx; exact absurd hx (List.not_mem_nil x)
  | cons z zs ih =>
    intro hx hqx huniq
    by_cases hz : q z = true
    · have : z = x := huniq z (List.mem_cons_self z zs) hz
      subst this
      exact List.find?_cons_of_pos zs hz
    · have hzx : z ≠ x := fun h => hz (h ▸ hqx)
      have hxzs : x ∈ zs := by
        rcases List.mem_cons.mp hx with h | h
        · exact absurd h.symm hzx
        · exact h
      rw [List.find?_cons_of_neg zs hz]
      exact ih hxzs hqx (fun y hy hqy => huniq y (List.mem_cons_of_mem z hy) hqy)

theorem unique_id_of_nodup (l : List Chat) (hnd : (l.map Chat.id).Nodup)
    (c : Chat) (hc : c ∈ l) :
    ∀ y ∈ l, (y.id == c.id) = true → y = c := by
  intro y hy hbeq
  have hid : y.id = c.id := by simpa using hbeq
  exact List.inj_on_of_nodup_map hnd hy hc hid

theorem onMessageNew_chats (s : PageState) (p : MessageEventPayload) :
    (onMessageNew s p).chats = applyChatListUpdate s p := by
  unfold onMessageNew
  split
  · split <;> rfl
  · rfl

theorem onMessageNew_pendingHit (s : PageState) (p : MessageEventPayload)
    (hact : isActiveChat s p = true) (hp : s.pending.contains p.id = true) :
    onMessageNew s p =
      { s with chats := applyChatListUpdate s p
               pending := s.pending.erase p.id
               selectedChat := s.selectedChat.map (touchSelectedChat p) } := by
  have hmem : p.id ∈ s.pending := by simpa using hp
  simp [onMessageNew, hact, hmem]

theorem onMessageNew_fresh (s : PageState) (p : MessageEventPayload)
    (hact : isActiveChat s p = true) (hp : s.pending.contains p.id = false) :
    onMessageNew s p =
      { s with chats := applyChatListUpdate s p
               selectedChat := s.selectedChat.map (touchSelectedChat p)
               messages :=
                 if s.messages.any (fun m => m.id == p.id) then s.messages
                 else s.messages ++ [normalizeRealtimeMessage p] } := by
  have hmem : p.id ∉ s.pending := by simpa using hp
  simp [onMessageNew, hact, hmem]

theorem onMessageNew_inactive (s : PageState) (p : MessageEventPayload)
    (hact : isActiveChat s p = false) :
    onMessageNew s p = { s with chats := applyChatListUpdate s p } := by
  simp [onMessageNew, hact]

theorem chatById_after_update (s : PageState) (p : MessageEventPayload)
    (c : Chat) (hnd : (s.chats.map Chat.id).Nodup) (hc : c ∈ s.chats)
    (hid : c.id = p.chat_id) :
    chatById (applyChatListUpdate s p) p.chat_id =
      some (updateChatOnMessage (isActiveChat s p) p c) := by
  have hq : (fun chat : Chat => chat.id == p.chat_id) c = true := by
    simp [hid]
  have huniq : ∀ y ∈ s.chats,
      (fun chat : Chat => chat.id == p.chat_id) y = true → y = c := by
    intro y hy hbeq
    apply unique_id_of_nodup s.chats hnd c hc y hy
    simp only [beq_iff_eq] at hbeq ⊢
    rw [hbeq, hid]
  have hany : s.chats.any (fun chat => chat.id == p.chat_id) = true :=
    List.any_eq_true.mpr ⟨c, hc, hq⟩
  obtain ⟨l1, l2, hl, _, hrf⟩ :=
    replaceFirst_decomp _ (updateChatOnMessage (isActiveChat s p) p) c
      s.chats hc hq huniq
  have hfid : (updateChatOnMessage (isActiveChat s p) p c).id = c.id := rfl
  have hmapL :
      ((l1 ++ updateChatOnMessage (isActiveChat s p) p c :: l2).map Chat.id)
        = s.chats.map Chat.id := by
    simp [hl, hfid]
  have hndL :
      ((l1 ++ updateChatOnMessage (isActiveChat s p) p c :: l2).map
        Chat.id).Nodup := by
    rw [hmapL]; exact hnd
  have hperm :
      List.Perm
        (sortChatsByPriority
          (l1 ++ updateChatOnMessage (isActiveChat s p) p c :: l2))
        (l1 ++ updateChatOnMessage (isActiveChat s p) p c :: l2) :=
    List.perm_insertionSort chatR _
  unfold applyChatListUpdate
  rw [hany]
  simp only [if_true, hrf]
  unfold chatById
  apply find_eq_of_unique
  · exact hperm.mem_iff.mpr (by simp)
  · simp [hfid, hid]
  · intro y hy hqy
    have hyL : y ∈ l1 ++ updateChatOnMessage (isActiveChat s p) p c :: l2 :=
      hperm.mem_iff.mp hy
    have hfcL : updateChatOnMessage (isActiveChat s p) p c ∈
        l1 ++ updateChatOnMessage (isActiveChat s p) p c :: l2 := by simp
    apply List.inj_on_of_nodup_map hndL hyL hfcL
    have : y.id = p.chat_id := by simpa using hqy
    rw [this, hfid, hid]

theorem chatById_markRead (l : List Chat) (cid : String) (c : Chat)
    (h : chatById l cid = some c) :
    chatById (markChatAsReadLocal l cid) cid
      = some { c with is_read := true } := by
  induction l with
  | nil => simp [chatById] at h
  | cons x xs ih =>
    by_cases hx : (x.id == cid) = true
    · have hxc : x = c := by
        have hfind : List.find? (fun y => y.id == cid) (x :: xs) = some x :=
          List.find?_cons_of_pos xs hx
        rw [chatById, hfind] at h
        injection h
      subst hxc
      have hhead : markChatAsReadLocal (x :: xs) cid
          = { x with is_read := true } :: markChatAsReadLocal xs cid := by
        unfold markChatAsReadLocal
        rw [List.map_cons]
        congr 1
        exact if_pos hx
      rw [chatById, hhead]
      exact List.find?_cons_of_pos _ hx
    · have hx' : (x.id == cid) = false := by
        cases hv : (x.id == cid) <;> simp_all
      have htail : chatById xs cid = some c := by
        rw [chatById] at h
        rwa [List.find?_cons_of_neg xs hx] at h
      have hhead : markChatAsReadLocal (x :: xs) cid
          = x :: markChatAsReadLocal xs cid := by
        unfold markChatAsReadLocal
        rw [List.map_cons]
        congr 1
        exact if_neg hx
      rw [chatById, hhead]
      have hstep :
          List.find? (fun y => y.id == cid)
            (x :: markChatAsReadLocal xs cid)
          = List.find? (fun y => y.id == cid) (markChatAsReadLocal xs cid) :=
        List.find?_cons_of_neg _ hx
      rw [hstep]
      exact ih htail

theorem mergeMessageN_fresh (pid : String) (store : List String)
    (hs : store.contains pid = false) :
    ∀ n, 1 ≤ n → mergeMessageN n pid store = (1, store ++ [pid]) := by
  intro n hn
  induction n with
  | zero => omega
  | succ k ih =>
    by_cases hk : 1 ≤ k
    · have hks := ih hk
      have hdup : (store ++ [pid]).contains pid = true := by simp
      simp [mergeMessageN, hks, create_message, hdup]
    · have hk0 : k = 0 := by omega
      subst hk0
      have hs' : pid ∉ store := by simpa using hs
      simp [mergeMessageN, create_message, hs']

theorem nodup_append_guard (l : List Message) (m : Message)
    (h : (l.map Message.id).Nodup)
    (hany : l.any (fun mm => mm.id == m.id) = false) :
    (((l ++ [m]).map Message.id)).Nodup := by
  rw [List.map_append]
  rw [List.nodup_append]
  refine ⟨h, by simp, ?_⟩
  intro a ha hb
  simp only [List.map_cons, List.map_nil, List.mem_singleton] at hb
  subst hb
  obtain ⟨mm, hmm, hmid⟩ := List.mem_map.mp ha
  have hmmf : (mm.id == m.id) = false := by
    cases hv : (mm.id == m.id)
    · rfl
    · exfalso
      have hone : l.any (fun mm2 => mm2.id == m.id) = true :=
        List.any_eq_true.mpr ⟨mm, hmm, hv⟩
      rw [hone] at hany
      exact Bool.noConfusion hany
  rw [hmid] at hmmf
  simp at hmmf

theorem applyOp_messages_cases (s : PageState) (op : ClientOp) :
    (applyOp s op).messages = s.messages ∨
    ∃ m, s.messages.any (fun mm => mm.id == m.id) = false ∧
      (applyOp s op).messages = s.messages ++ [m] := by
  cases op with
  | sendAck m =>
    unfold applyOp handleSendAck
    cases s.selectedChat with
    | none => exact Or.inl rfl
    | some c =>
      by_cases hig : c.is_ignored = true
      · simp [hig]
      · by_cases hide : (m.id == "") = true
        · simp [hig, hide]
        · by_cases hany : s.messages.any (fun mm => mm.id == m.id) = true
          · simp [hig, hide, hany]
          · right
            refine ⟨m, by simpa using hany, ?_⟩
            simp [hig, hide, hany]
  | remote p =>
    unfold applyOp onMessageNew
    by_cases hact : isActiveChat s p = true
    · by_cases hp : p.id ∈ s.pending
      · simp [hact, hp]
      · by_cases hany : s.messages.any (fun mm => mm.id == p.id) = true
        · simp [hact, hp, hany]
        · right
          refine ⟨normalizeRealtimeMessage p, ?_, ?_⟩
          · simpa [normalizeRealtimeMessage] using hany
          · simp [hact, hp, hany]
    · have hact' : isActiveChat s p = false := by
        cases hv : isActiveChat s p <;> simp_all
      simp [hact']
  | purge id => exact Or.inl rfl

theorem applyOp_nodup (s : PageState) (op : ClientOp)
    (h : (s.messages.map Message.id).Nodup) :
    ((applyOp s op).messages.map Message.id).Nodup := by
  rcases applyOp_messages_cases s op with hcase | ⟨m, hany, hcase⟩
  · rw [hcase]; exact h
  · rw [hcase]; exact nodup_append_guard s.messages m h hany

/-! ### Claim theorems -/

/-- C10: `sortChatsByPriority` returns a permutation of its input (the
source copies the array, so the input itself is untouched) in which every
unread chat precedes every read chat, and within each read-state group chats
are in descending timestamp order, a null timestamp counting as 0. -/
theorem sortChatsByPriority_spec (items : List Chat) :
    List.Perm (sortChatsByPriority items) items ∧
    List.Pairwise
      (fun a b => (a.is_read = false ∧ b.is_read = true) ∨
        (a.is_read = b.is_read ∧ chatTime b ≤ chatTime a))
      (sortChatsByPriority items) := by
  constructor
  · exact List.perm_insertionSort chatR items
  · exact (List.sorted_insertionSort chatR items).imp
      (fun h => (chatR_iff _ _).mp h)

/-- C8: for attempt count `n` the scheduled reconnect delay is
`min 30000 (1000 * 2 ^ n)` — exponential below the cap and pinned to the
30 s ceiling from the fifth attempt on — each schedule increments the
counter, and a successful open resets it to 0. -/
theorem reconnect_backoff_spec (s : RealtimeClientState) :
    (scheduleReconnect s).1 = min 30000 (1000 * 2 ^ s.reconnectAttempts) ∧
    (scheduleReconnect s).1 =
      (if 5 ≤ s.reconnectAttempts then 30000
       else 1000 * 2 ^ s.reconnectAttempts) ∧
    (scheduleReconnect s).1 ≤ 30000 ∧
    (scheduleReconnect s).2.reconnectAttempts = s.reconnectAttempts + 1 ∧
    (onSocketOpen s).reconnectAttempts = 0 := by
  refine ⟨rfl, ?_, ?_, rfl, rfl⟩
  · by_cases h : 5 ≤ s.reconnectAttempts
    · have h32 : 32 ≤ 2 ^ s.reconnectAttempts := by
        calc (32 : Nat) = 2 ^ 5 := by norm_num
        _ ≤ 2 ^ s.reconnectAttempts := Nat.pow_le_pow_right (by norm_num) h
      simp only [scheduleReconnect, if_pos h]
      omega
    · have h16 : 2 ^ s.reconnectAttempts ≤ 16 := by
        calc 2 ^ s.reconnectAttempts ≤ 2 ^ 4 :=
          Nat.pow_le_pow_right (by norm_num) (by omega)
        _ = 16 := by norm_num
      simp only [scheduleReconnect, if_neg h]
      omega
  · exact Nat.min_le_left _ _

/-- C7: the webhook ingestion entry point acknowledges every payload with
success (HTTP 200), including payloads whose internal processing fails;
failures only contribute a log entry and are never surfaced. -/
theorem webhook_always_acks
    (process : MessageEventPayload → Except String Unit)
    (p : MessageEventPayload) :
    (handleInboundEvent process p).1 = WebhookAck.ok ∧
    ((handleInboundEvent process p).2 = [] ↔
      ∃ u, process p = Except.ok u) := by
  unfold handleInboundEvent
  cases hp : process p with
  | ok u => exact ⟨rfl, by simp⟩
  | error e => exact ⟨rfl, by simp⟩

/-- C3 counterexample: an inbound message (`is_sender = 0`) arriving on the
read, actively selected conversation leaves it read (`is_read = true`); the
claim states any inbound message on a read conversation moves it to
unread. -/
theorem unread_state_machine_cex :
    samplePayload.is_sender = 0 ∧ sampleChat.is_read = true ∧
    (chatById (onMessageNew sampleState samplePayload).chats "c1").map
      Chat.is_read = some true := by
  decide

/-- C3 (amended): an inbound message on a conversation that is not actively
selected moves it to unread; an inbound message on the actively selected
conversation marks it read; an outbound message never changes the read
state; opening a chat (`handleChatSelect`) marks it read. -/
theorem unread_state_machine (s : PageState) (p : MessageEventPayload)
    (c : Chat) (fetched : List Message)
    (hnd : (s.chats.map Chat.id).Nodup) (hc : c ∈ s.chats)
    (hid : c.id = p.chat_id) :
    (p.is_sender = 0 → isActiveChat s p = false →
      (chatById (onMessageNew s p).chats p.chat_id).map Chat.is_read
        = some false) ∧
    (p.is_sender = 0 → isActiveChat s p = true →
      (chatById (onMessageNew s p).chats p.chat_id).map Chat.is_read
        = some true) ∧
    (p.is_sender ≠ 0 →
      (chatById (onMessageNew s p).chats p.chat_id).map Chat.is_read
        = some c.is_read) ∧
    (c.is_ignored = false →
      (chatById (handleChatSelect s c fetched).chats c.id).map Chat.is_read
        = some true) := by
  have hmain := chatById_after_update s p c hnd hc hid
  refine ⟨?_, ?_, ?_, ?_⟩
  · intro h0 hactf
    rw [onMessageNew_chats, hmain, hactf]
    simp [updateChatOnMessage, h0]
  · intro h0 hactt
    rw [onMessageNew_chats, hmain, hactt]
    simp [updateChatOnMessage, h0]
  · intro h0
    have h0' : (p.is_sender == 0) = false := by
      cases hv : (p.is_sender == 0)
      · rfl
      · exact absurd (by simpa using hv) h0
    rw [onMessageNew_chats, hmain]
    simp [updateChatOnMessage, h0']
  · intro hig
    have hfind : chatById s.chats c.id = some c :=
      find_eq_of_unique _ c s.chats hc (by simp)
        (unique_id_of_nodup s.chats hnd c hc)
    have hig' : ¬(c.is_ignored = true) := by simp [hig]
    unfold handleChatSelect
    rw [if_neg hig']
    by_cases hr : c.is_read = true
    · simp only [hr, if_true]
      rw [hfind]
      simp [hr]
    · have hr' : ¬(c.is_read = true) := hr
      simp only [if_neg hr']
      rw [chatById_markRead s.chats c.id c hfind]
      rfl

/-- C3 witness: the amended theorem applied to the concrete sample state. -/
theorem unread_state_machine_witness :
    (samplePayload.is_sender = 0 →
      isActiveChat sampleState samplePayload = false →
      (chatById (onMessageNew sampleState samplePayload).chats
        samplePayload.chat_id).map Chat.is_read = some false) ∧
    (samplePayload.is_sender = 0 →
      isActiveChat sampleState samplePayload = true →
      (chatById (onMessageNew sampleState samplePayload).chats
        samplePayload.chat_id).map Chat.is_read = some true) ∧
    (samplePayload.is_sender ≠ 0 →
      (chatById (onMessageNew sampleState samplePayload).chats
        samplePayload.chat_id).map Chat.is_read = some sampleChat.is_read) ∧
    (sampleChat.is_ignored = false →
      (chatById (handleChatSelect sampleState sampleChat []).chats
        sampleChat.id).map Chat.is_read = some true) :=
  unread_state_machine sampleState samplePayload sampleChat []
    (by decide) (by decide) (by decide)

/-- C4 (amended): after the realtime handler merges a payload into the chat
list, the matched conversation's stored timestamp equals that payload's
timestamp — last write wins, not the maximum over merged messages. -/
theorem chat_timestamp_last_write (s : PageState) (p : MessageEventPayload)
    (c : Chat) (hnd : (s.chats.map Chat.id).Nodup) (hc : c ∈ s.chats)
    (hid : c.id = p.chat_id) :
    (chatById (onMessageNew s p).chats p.chat_id).map Chat.timestamp
      = some (some p.timestamp) := by
  rw [onMessageNew_chats, chatById_after_update s p c hnd hc hid]
  rfl

/-- C4 counterexample: merging a payload timestamped 1000 into a
conversation stored at 2000 rewinds the stored timestamp to 1000, so the
last-activity timestamp is neither monotonically non-decreasing nor the
maximum of the merged messages' timestamps. -/
theorem chat_timestamp_last_write_cex :
    lateChat.timestamp = some 2000 ∧ stalePayload.timestamp = 1000 ∧
    (chatById (onMessageNew lateState stalePayload).chats "c1").map
      Chat.timestamp = some (some 1000) ∧ (1000 : Nat) < 2000 := by
  decide

/-- C4 witness: the amended theorem applied to the concrete stale-payload
state. -/
theorem chat_timestamp_last_write_witness :
    (chatById (onMessageNew lateState stalePayload).chats
      stalePayload.chat_id).map Chat.timestamp = some (some 1000) :=
  chat_timestamp_last_write lateState stalePayload lateChat
    (by decide) (by decide) (by decide)

theorem handleSendAck_eq (s : PageState) (c : Chat) (persisted : Message)
    (hsel : s.selectedChat = some c) (hig : c.is_ignored = false)
    (hide : (persisted.id == "") = false) :
    handleSendAck s persisted =
      { s with
        pending := if s.pending.contains persisted.id then s.pending
                   else s.pending ++ [persisted.id]
        messages := if s.messages.any (fun m => m.id == persisted.id)
                    then s.messages
                    else s.messages ++ [persisted] } := by
  unfold handleSendAck
  rw [hsel]
  simp [hig, hide]

theorem filter_id_eq_nil (l : List Message) (x : String)
    (h : l.any (fun m => m.id == x) = false) :
    l.filter (fun m => m.id == x) = [] := by
  apply List.filter_eq_nil_iff.mpr
  intro m hmem hcon
  have hone : l.any (fun m => m.id == x) = true :=
    List.any_eq_true.mpr ⟨m, hmem, hcon⟩
  rw [hone] at h
  exact Bool.noConfusion h

/-- C1: merging the same provider id `n ≥ 1` times into the store yields
exactly one stored row via exactly one insert (the other `n - 1` calls are
no-ops), and applying the same remote message event twice to the client
transcript leaves exactly one entry with that id. -/
theorem merge_idempotent (n : Nat) (hn : 1 ≤ n) (store : List String)
    (pid : String) (hs : store.contains pid = false)
    (s : PageState) (p : MessageEventPayload)
    (hact : isActiveChat s p = true)
    (hpnd : s.pending.contains p.id = false)
    (hm : s.messages.any (fun m => m.id == p.id) = false) :
    (mergeMessageN n pid store).2 = store ++ [pid] ∧
    (mergeMessageN n pid store).1 = 1 ∧
    ((onMessageNew (onMessageNew s p) p).messages.filter
      (fun m => m.id == p.id)).length = 1 := by
  have hmerge := mergeMessageN_fresh pid store hs n hn
  refine ⟨by rw [hmerge], by rw [hmerge], ?_⟩
  have h1 := onMessageNew_fresh s p hact hpnd
  have hmsgs1 : (onMessageNew s p).messages
      = s.messages ++ [normalizeRealtimeMessage p] := by
    rw [h1]
    simp [hm]
  have hsel1 : (onMessageNew s p).selectedChat
      = s.selectedChat.map (touchSelectedChat p) := by rw [h1]
  have hpend1 : (onMessageNew s p).pending = s.pending := by rw [h1]
  have hact1 : isActiveChat (onMessageNew s p) p = true := by
    unfold isActiveChat at hact ⊢
    rw [hsel1]
    cases hsc : s.selectedChat with
    | none => rw [hsc] at hact; exact absurd hact (by simp)
    | some c =>
      rw [hsc] at hact
      simpa [touchSelectedChat] using hact
  have hpnd1 : (onMessageNew s p).pending.contains p.id = false := by
    rw [hpend1]; exact hpnd
  have h2 := onMessageNew_fresh (onMessageNew s p) p hact1 hpnd1
  have hany1 : (onMessageNew s p).messages.any (fun m => m.id == p.id)
      = true := by
    rw [hmsgs1]
    apply List.any_eq_true.mpr
    exact ⟨normalizeRealtimeMessage p, by simp, by simp [normalizeRealtimeMessage]⟩
  have hmsgs2 : (onMessageNew (onMessageNew s p) p).messages
      = (onMessageNew s p).messages := by
    rw [h2]
    simp [hany1]
  rw [hmsgs2, hmsgs1, List.filter_append, filter_id_eq_nil s.messages p.id hm]
  simp [normalizeRealtimeMessage]

/-- C1 witness: three merges of a fresh provider id, and the same remote
event applied twice to the concrete sample state. -/
theorem merge_idempotent_witness :
    (mergeMessageN 3 "m1" []).2 = [] ++ ["m1"] ∧
    (mergeMessageN 3 "m1" []).1 = 1 ∧
    ((onMessageNew (onMessageNew sampleState samplePayload)
        samplePayload).messages.filter
      (fun m => m.id == samplePayload.id)).length = 1 :=
  merge_idempotent 3 (by decide) [] "m1" (by decide) sampleState
    samplePayload (by decide) (by decide) (by decide)

/-- C2: a local send acknowledged with id X and appended optimistically,
followed within the pending window by the remote event with id X, leaves the
transcript with exactly one entry for X: the optimistic copy is retained and
the remote payload is not appended. -/
theorem client_dedup (s : PageState) (c : Chat) (persisted : Message)
    (p : MessageEventPayload)
    (hsel : s.selectedChat = some c) (hig : c.is_ignored = false)
    (hide : (persisted.id == "") = false) (hchat : p.chat_id = c.id)
    (hpid : p.id = persisted.id)
    (hm : s.messages.any (fun m => m.id == persisted.id) = false) :
    (onMessageNew (handleSendAck s persisted) p).messages
      = s.messages ++ [persisted] ∧
    ((onMessageNew (handleSendAck s persisted) p).messages.filter
      (fun m => m.id == persisted.id)).length = 1 := by
  have hsa := handleSendAck_eq s c persisted hsel hig hide
  have hmsgs1 : (handleSendAck s persisted).messages
      = s.messages ++ [persisted] := by
    rw [hsa]
    simp [hm]
  have hsel1 : (handleSendAck s persisted).selectedChat = s.selectedChat := by
    rw [hsa]
  have hpend1 : (handleSendAck s persisted).pending.contains persisted.id
      = true := by
    rw [hsa]
    by_cases hcp : persisted.id ∈ s.pending
    · simp [hcp]
    · simp [hcp]
  have hact1 : isActiveChat (handleSendAck s persisted) p = true := by
    unfold isActiveChat
    rw [hsel1, hsel]
    simp [hchat]
  have hp1 : (handleSendAck s persisted).pending.contains p.id = true := by
    rw [hpid]; exact hpend1
  have h2 := onMessageNew_pendingHit (handleSendAck s persisted) p hact1 hp1
  have hfinal : (onMessageNew (handleSendAck s persisted) p).messages
      = s.messages ++ [persisted] := by
    rw [h2]; exact hmsgs1
  refine ⟨hfinal, ?_⟩
  rw [hfinal, List.filter_append, filter_id_eq_nil s.messages persisted.id hm]
  simp

/-- C2 witness: the concrete sample send followed by its remote echo. -/
theorem client_dedup_witness :
    (onMessageNew (handleSendAck sampleState samplePersisted)
      samplePayload).messages
      = sampleState.messages ++ [samplePersisted] ∧
    ((onMessageNew (handleSendAck sampleState samplePersisted)
      samplePayload).messages.filter
      (fun m => m.id == samplePersisted.id)).length = 1 :=
  client_dedup sampleState sampleChat samplePersisted samplePayload
    (by decide) (by decide) (by decide) (by decide) (by decide) (by decide)

/-- C5: a pending marker is created at send time with the acknowledged id;
it is removed when the matching remote event arrives, and the timeout purge
removes it regardless of whether the echo arrived; after the purge a late
echo is handled as a normal remote event, deduplicated solely by the
id-presence-in-transcript check. -/
theorem pending_send_lifecycle (s : PageState) (c : Chat)
    (persisted : Message) (p : MessageEventPayload) (x : String)
    (hsel : s.selectedChat = some c) (hig : c.is_ignored = false)
    (hide : (persisted.id == "") = false) (hchat : p.chat_id = c.id) :
    ((handleSendAck s persisted).pending.contains persisted.id = true) ∧
    (s.pending.contains p.id = true →
      (onMessageNew s p).pending = s.pending.erase p.id) ∧
    ((purgePending s x).pending = s.pending.erase x) ∧
    (s.pending.Nodup → x ∉ (purgePending s x).pending) ∧
    (s.pending.contains p.id = false →
      (onMessageNew s p).messages =
        (if s.messages.any (fun m => m.id == p.id) then s.messages
         else s.messages ++ [normalizeRealtimeMessage p])) := by
  have hsa := handleSendAck_eq s c persisted hsel hig hide
  have hact : isActiveChat s p = true := by
    unfold isActiveChat; rw [hsel]; simp [hchat]
  refine ⟨?_, ?_, rfl, ?_, ?_⟩
  · rw [hsa]
    by_cases hcp : persisted.id ∈ s.pending
    · simp [hcp]
    · simp [hcp]
  · intro hp
    rw [onMessageNew_pendingHit s p hact hp]
  · intro hnd hmem
    have hiff := (List.Nodup.mem_erase_iff hnd).mp hmem
    exact hiff.1 rfl
  · intro hp
    rw [onMessageNew_fresh s p hact hp]

/-- C5 witness: the lifecycle clauses at the concrete sample state. -/
theorem pending_send_lifecycle_witness :
    ((handleSendAck sampleState samplePersisted).pending.contains
      samplePersisted.id = true) ∧
    (sampleState.pending.contains samplePayload.id = true →
      (onMessageNew sampleState samplePayload).pending
        = sampleState.pending.erase samplePayload.id) ∧
    ((purgePending sampleState "m1").pending
      = sampleState.pending.erase "m1") ∧
    (sampleState.pending.Nodup →
      "m1" ∉ (purgePending sampleState "m1").pending) ∧
    (sampleState.pending.contains samplePayload.id = false →
      (onMessageNew sampleState samplePayload).messages =
        (if sampleState.messages.any
            (fun m => m.id == samplePayload.id)
         then sampleState.messages
         else sampleState.messages
              ++ [normalizeRealtimeMessage samplePayload])) :=
  pending_send_lifecycle sampleState sampleChat samplePersisted
    samplePayload "m1" (by decide) (by decide) (by decide) (by decide)

/-- C6: on a pending-set hit the remote message payload is discarded (the
transcript is unchanged, retaining the optimistic copy) while the
conversation-level metadata is still applied: the chat-list entry's
timestamp is updated and the selected chat receives the payload timestamp
and is marked read; the pending marker is consumed. -/
theorem pending_hit_frame (s : PageState) (c : Chat)
    (p : MessageEventPayload)
    (hnd : (s.chats.map Chat.id).Nodup) (hc : c ∈ s.chats)
    (hsel : s.selectedChat = some c) (hchat : p.chat_id = c.id)
    (hp : s.pending.contains p.id = true) :
    (onMessageNew s p).messages = s.messages ∧
    (onMessageNew s p).selectedChat
      = some { c with timestamp := some p.timestamp, is_read := true } ∧
    (chatById (onMessageNew s p).chats p.chat_id).map Chat.timestamp
      = some (some p.timestamp) ∧
    (onMessageNew s p).pending = s.pending.erase p.id := by
  have hact : isActiveChat s p = true := by
    unfold isActiveChat; rw [hsel]; simp [hchat]
  have h1 := onMessageNew_pendingHit s p hact hp
  refine ⟨by rw [h1], ?_, ?_, by rw [h1]⟩
  · rw [h1]
    show s.selectedChat.map (touchSelectedChat p) = _
    rw [hsel]
    rfl
  · rw [onMessageNew_chats, chatById_after_update s p c hnd hc hchat.symm]
    rfl

/-- C6 witness: the frame property at the concrete pending sample state. -/
theorem pending_hit_frame_witness :
    (onMessageNew samplePendingState samplePayload).messages
      = samplePendingState.messages ∧
    (onMessageNew samplePendingState samplePayload).selectedChat
      = some { sampleChat with
          timestamp := some samplePayload.timestamp, is_read := true } ∧
    (chatById (onMessageNew samplePendingState samplePayload).chats
      samplePayload.chat_id).map Chat.timestamp
      = some (some samplePayload.timestamp) ∧
    (onMessageNew samplePendingState samplePayload).pending
      = samplePendingState.pending.erase samplePayload.id :=
  pending_hit_frame samplePendingState sampleChat samplePayload
    (by decide) (by decide) (by decide) (by decide) (by decide)

/-- C9: transcript id uniqueness is an invariant — starting from a
transcript with pairwise-distinct ids, any interleaving of local send
acknowledgements, remote events and pending purges preserves distinctness,
because every appending path first checks id presence. -/
theorem transcript_ids_nodup (s : PageState) (ops : List ClientOp)
    (h : (s.messages.map Message.id).Nodup) :
    ((applyOps s ops).messages.map Message.id).Nodup := by
  induction ops generalizing s with
  | nil => exact h
  | cons op rest ih =>
    unfold applyOps
    rw [List.foldl_cons]
    exact ih (applyOp s op) (applyOp_nodup s op h)

/-- C9 witness: a concrete interleaving of a send acknowledgement, its
remote echo and the pending purge. -/
theorem transcript_ids_nodup_witness :
    ((applyOps sampleState
      [ClientOp.sendAck samplePersisted, ClientOp.remote samplePayload,
       ClientOp.purge "m1"]).messages.map Message.id).Nodup :=
  transcript_ids_nodup sampleState
    [ClientOp.sendAck samplePersisted, ClientOp.remote samplePayload,
     ClientOp.purge "m1"] (by decide)

end Setdm
